import Mathlib

/-!
Verification of the idb-next write path of pouchdb
(src/adapters/idb-next/bulkDocs.js and getAttachment.js).

The source file is embedded shallowly: the JavaScript objects become Lean
structures, object maps become association lists, IndexedDB callbacks become
explicit state passing, and a thrown JavaScript exception (a code path the
adapter never handles) is modelled as `Option.none`.  JavaScript fields that a
given object may lack (`doc.deleted` on a freshly converted document, for
instance) are modelled as `Option` fields, with `none` playing the role of
`undefined`; JavaScript truthiness tests on them go through explicit helpers.

The external dependencies of bulkDocs.js (deps/merge, deps/docs/parseDoc,
deps/merge/winningRev, deps/md5, the platform atob) are not part of the
sources; they are modelled from the specification, and each such definition
carries a doc comment starting with "Modelled from the spec:".
-/

set_option autoImplicit false

namespace Pouch

deriving instance DecidableEq for Except

/-- An error record as produced by deps/errors createError: a name, a message
and an optional reason. -/
structure PouchErr where
  name : String
  message : String
  reason : Option String
deriving DecidableEq

/-- The REV_CONFLICT error template of deps/errors. -/
def REV_CONFLICT : PouchErr := ⟨"conflict", "Document update conflict", none⟩

/-- The MISSING_DOC error template of deps/errors. -/
def MISSING_DOC : PouchErr := ⟨"not_found", "missing", none⟩

/-- The BAD_ARG error template of deps/errors. -/
def BAD_ARG : PouchErr := ⟨"badarg", "Some query argument is invalid", none⟩

/-- createError with only a template argument. -/
def createError (e : PouchErr) : PouchErr := e

/-- createError with a template and a reason argument. -/
def createErrorR (e : PouchErr) (reason : String) : PouchErr :=
  { e with reason := some reason }

/-- JavaScript truthiness of a possibly-absent numeric field: `undefined` and
`0` are falsy, every other number is truthy. -/
def truthyDel : Option Nat → Bool
  | none => false
  | some n => n != 0

/-- Association-list lookup, the embedding of a JavaScript object property
read `m[k]`. -/
def lookupA {α : Type} (m : List (String × α)) (k : String) : Option α :=
  match m with
  | [] => none
  | (k', v) :: t => if k' = k then some v else lookupA t k

/-- Association-list insertion, the embedding of `m[k] = v`: an existing key
keeps its position, a new key is appended. -/
def insertA {α : Type} (m : List (String × α)) (k : String) (v : α) :
    List (String × α) :=
  match m with
  | [] => [(k, v)]
  | (k', v') :: t => if k' = k then (k, v) :: t else (k', v') :: insertA t k v

/-- Association-list deletion, the embedding of `delete m[k]`. -/
def eraseA {α : Type} (m : List (String × α)) (k : String) : List (String × α) :=
  match m with
  | [] => []
  | (k', v) :: t => if k' = k then eraseA t k else (k', v) :: eraseA t k

/-- Map a fallible function over a list, failing as soon as one element
fails; the embedding of a Promise.all over per-element processing. -/
def mapOptA {α β : Type} (f : α → Option β) : List α → Option (List β)
  | [] => some []
  | a :: t =>
    match f a with
    | none => none
    | some b =>
      match mapOptA f t with
      | none => none
      | some bs => some (b :: bs)

/-- Update the value stored under `k` when the key is present; used to model a
mutation performed through an aliased reference to the stored object (the
mutation is visible in the map exactly when the entry still exists). -/
def updateIfPresent {α : Type} (m : List (String × α)) (k : String) (f : α → α) :
    List (String × α) :=
  match m with
  | [] => []
  | (k', v) :: t =>
    if k' = k then (k', f v) :: updateIfPresent t k f
    else (k', v) :: updateIfPresent t k f

/-! ### Revision identifiers and revision trees

A revision identifier is serialized as `"<generation>-<id>"`.  A revision
tree (the `rev_tree` field) is modelled as the forest's root-to-leaf path
decomposition: each entry is a path `{pos, nodes}` whose k-th node has
generation `pos + k`; a branched tree is the set of its root-to-leaf paths
(sharing prefixes).  This is the decomposition pouchdb's merge itself
reduces trees to, and the only direct access bulkDocs.js performs on the
structure (`doc.rev_tree[0].ids[1].status`) reads the first entry's root
node status, which the representation preserves. -/

/-- One root-to-leaf path of a revision tree: `pos` is the generation of the
first node and `nodes` lists `(id, status)` pairs from the root downwards,
with status one of "available", "missing", "deleted". -/
structure RevPath where
  pos : Nat
  nodes : List (String × String)
deriving DecidableEq

/-- Split a character list at its first dash. -/
def breakDash : List Char → Option (List Char × List Char)
  | [] => none
  | c :: t =>
    if c = '-' then some ([], t)
    else
      match breakDash t with
      | none => none
      | some (a, b) => some (c :: a, b)

/-- Read a decimal number from a character list. -/
def digitsToNatAux (acc : Nat) : List Char → Option Nat
  | [] => some acc
  | c :: t => if c.isDigit then digitsToNatAux (acc * 10 + (c.toNat - 48)) t else none

/-- Parse a serialized revision `"<generation>-<id>"`: a positive decimal
generation, a dash, and a nonempty opaque id. -/
def parseRev (s : String) : Option (Nat × String) :=
  match breakDash s.toList with
  | none => none
  | some (g, rest) =>
    if g.isEmpty || rest.isEmpty then none
    else
      match digitsToNatAux 0 g with
      | none => none
      | some n => if n = 0 then none else some (n, String.mk rest)

/-- The regular-expression test of bulkDocs.js line 134: does the revision
string start with the two characters "1" and "-" of a generation-1 rev. -/
def isGen1 (s : String) : Bool :=
  match s.toList with
  | c :: c2 :: _ => c = '1' && c2 = '-'
  | _ => false

/-- Serialize a generation and a node id back into a revision string. -/
def revStr (gen : Nat) (id : String) : String := toString gen ++ "-" ++ id

/-! ### The revision tree merger (deps/merge), modelled from the spec -/

/-- Result of merging one incoming branch into a revision forest. -/
structure MergeRes where
  tree : List RevPath
  conflicts : String
  stemmedRevs : List String
deriving DecidableEq

/-- Length of the longest common prefix of two node lists, comparing node ids
only (statuses of already-known nodes are kept from the existing tree). -/
def commonLen : List (String × String) → List (String × String) → Nat
  | (a :: as), (b :: bs) => if a.1 = b.1 then commonLen as bs + 1 else 0
  | _, _ => 0

/-- Modelled from the spec: one grafting attempt of deps/merge — try to attach
the incoming branch `p` to the existing root-to-leaf path `P` at their deepest
common ancestor.  Returns the replacement path(s) and the conflict
classification, or `none` when the two share no node: extending the path's
leaf yields "new_leaf", diverging before the leaf introduces a branch point
and yields "new_branch", and a branch already contained in the path yields
"internal_node". -/
def graft (P p : RevPath) : Option (List RevPath × String) :=
  if p.pos < P.pos then none
  else
    let off := p.pos - P.pos
    if off ≥ P.nodes.length then none
    else
      let m := commonLen (P.nodes.drop off) p.nodes
      if m = 0 then none
      else if m = p.nodes.length then some ([P], "internal_node")
      else if off + m = P.nodes.length then
        some ([⟨P.pos, P.nodes ++ p.nodes.drop m⟩], "new_leaf")
      else
        some ([P, ⟨P.pos, P.nodes.take (off + m) ++ p.nodes.drop m⟩], "new_branch")

/-- Modelled from the spec: the splicing pass of deps/merge — attach the
incoming branch to the first root path that shares a node with it; a branch
with no shared ancestor is added as an additional root. -/
def insertPath : List RevPath → RevPath → (List RevPath × String)
  | [], p => ([p], "internal_node")
  | P :: rest, p =>
    match graft P p with
    | some (ps, c) => (ps ++ rest, c)
    | none =>
      let r := insertPath rest p
      (P :: r.1, r.2)

/-- Replace the statuses of the first `k` nodes of a path by "missing",
keeping ids and tree shape. -/
def markStem : Nat → List (String × String) → List (String × String)
  | 0, ns => ns
  | _ + 1, [] => []
  | k + 1, (i, _) :: ns => (i, "missing") :: markStem k ns

/-- Collect the serialized revisions of the first `k` nodes of a path whose
root node has generation `pos`. -/
def collectStem (pos : Nat) : Nat → List (String × String) → List String
  | 0, _ => []
  | _ + 1, [] => []
  | k + 1, (i, _) :: ns => revStr pos i :: collectStem (pos + 1) k ns

/-- Modelled from the spec: the stemming pass of deps/merge — prune each
branch so that no branch exceeds `limit` generations from its leaf; pruned
ancestor nodes keep a "missing" status marker rather than being deleted, and
their serialized revisions are reported. -/
def stemPath (limit : Nat) (P : RevPath) : RevPath × List String :=
  let cut := P.nodes.length - limit
  (⟨P.pos, markStem cut P.nodes⟩, collectStem P.pos cut P.nodes)

/-- Modelled from the spec: deps/merge/index — merge one incoming branch into
an existing revision forest, classify the edit, and stem every branch to the
revision limit. -/
def merge (tree : List RevPath) (p : RevPath) (limit : Nat) : MergeRes :=
  let ins := insertPath tree p
  let st := ins.1.map (stemPath limit)
  ⟨st.map Prod.fst, ins.2, (st.map Prod.snd).flatten⟩

/-! ### The winning-revision selector (deps/merge/winningRev), modelled
from the spec -/

/-- The leaves of a revision forest as `(generation, id, status)` triples,
one per root-to-leaf path. -/
def leavesOf (tree : List RevPath) : List (Nat × String × String) :=
  tree.filterMap (fun P =>
    match P.nodes.getLast? with
    | none => none
    | some (i, s) => some (P.pos + P.nodes.length - 1, i, s))

/-- Pick the candidate with the greatest generation, tie-broken by the
lexicographically greatest id. -/
def pickBest : List (Nat × String) → Option (Nat × String)
  | [] => none
  | c :: cs =>
    match pickBest cs with
    | none => some c
    | some b =>
      if c.1 > b.1 || (c.1 = b.1 && b.2 < c.2) then some c else some b

/-! ### Attachments and document bodies -/

/-- Modelled from the spec: the opaque decoded bytes of a base64 payload, as
produced by the platform decoder `atob`.  Only success or failure of the
decoding matters to the adapter, so the bytes are kept opaque, tagged by
their source text. -/
inductive Bin where
  | decodedB64 (src : String)
deriving DecidableEq

/-- Modelled from the spec: byte count of a decoded payload. -/
def Bin.len : Bin → Nat
  | .decodedB64 s => s.length / 4 * 3

/-- The value flowing out of parseBase64 in bulkDocs.js: either a decoded
binary string or — on invalid base64 — the error record that the source wraps
in an object and returns in place of the data. -/
inductive B64Res where
  | bin (b : Bin)
  | errObj (e : PouchErr)
deriving DecidableEq

/-- A stored binary value, as produced by deps/binary
binStringToBlobOrBuffer.  The source passes parseBase64's result to it
without checking for the error case, so the blob may wrap either decoded
bytes or the swallowed error record. -/
inductive BlobData where
  | fromBin (b : Bin)
  | fromErr (e : PouchErr)
deriving DecidableEq

/-- The `data` field of an attachment: a base64 text payload on input
(`typeof data === 'string'`), a binary blob after processing. -/
inductive AttachData where
  | text (s : String)
  | blob (b : BlobData)
deriving DecidableEq

/-- An attachment record; absent JavaScript fields are `none`. -/
structure Attachment where
  stub : Bool
  data : Option AttachData
  content_type : Option String
  length : Option Nat
  digest : Option String
deriving DecidableEq

/-- A document body: an opaque user payload plus the underscore-prefixed
fields the adapter reads or writes (`_attachments`, `_id`, `_rev`,
`_deleted`); absent fields are `none`. -/
structure Body where
  content : String
  attachmentsF : Option (List (String × Attachment))
  idF : Option String
  revF : Option String
  deletedF : Bool
deriving DecidableEq

/-- Modelled from the spec: the platform base64 decoder `atob` accepts a
string exactly when it is well-formed base64; the precise alphabet check
stands in for the platform's. -/
def validB64 (s : String) : Bool :=
  s.length % 4 != 1 &&
    s.toList.all (fun c => c.isAlphanum || c = '+' || c = '/' || c = '=')

/-- Embedding of parseBase64 (bulkDocs.js lines 35-43): decode the payload,
or return the BAD_ARG error record in place of the data. -/
def parseBase64 (s : String) : B64Res :=
  if validB64 s then .bin (.decodedB64 s)
  else .errObj (createErrorR BAD_ARG "Attachment is not a valid base64 string")

/-- Modelled from the spec: deps/binary binStringToBlobOrBuffer wraps its
argument into a backend-native binary value; the source hands it
parseBase64's result unchecked, so the error record is wrapped as well. -/
def binStringToBlobOrBuffer : B64Res → BlobData
  | .bin b => .fromBin b
  | .errObj e => .fromErr e

/-- The `.length` property read on parseBase64's result: a string length for
decoded bytes, `undefined` for the swallowed error record. -/
def binLen : B64Res → Option Nat
  | .bin b => some b.len
  | .errObj _ => none

/-- Modelled from the spec: the deps/md5 digest primitive, a black-box
content hash; it is total in the model so that the adapter's habit of feeding
it the swallowed error record still yields a digest string. -/
def md5M : B64Res → String
  | .bin (.decodedB64 s) => "digest" ++ s
  | .errObj e => "digesterr" ++ e.message

/-! ### Document records and the external parser -/

/-- The per-revision body entry stored in a document's `revs` map. -/
structure RevData where
  data : Body
  deleted : Bool
deriving DecidableEq

/-- A document record in the shape bulkDocs.js stores it: `deleted`, `data`,
`seq` and `stemmedRevs` are absent (`none`) on freshly converted documents
and are only filled in by `write`. -/
structure DocRec where
  id : String
  rev : String
  rev_tree : List RevPath
  revs : List (String × RevData)
  deleted : Option Nat
  data : Option Body
  seq : Option Nat
  attachments : List (String × Attachment)
  stemmedRevs : Option (List String)
deriving DecidableEq

/-- Embedding of calculateWinningRev (deps/merge/winningRev, modelled from
the spec): enumerate the leaves, prefer non-deleted leaves, then pick the
greatest generation with the lexicographically greatest id as tie-break. -/
def calculateWinningRev (doc : DocRec) : String :=
  let leaves := leavesOf doc.rev_tree
  let nonDeleted := leaves.filter (fun l => l.2.2 != "deleted")
  let pool := if nonDeleted.isEmpty then leaves else nonDeleted
  match pickBest (pool.map (fun l => (l.1, l.2.1))) with
  | some (g, i) => revStr g i
  | none => ""

/-- Parsed-document metadata as returned by the external parser. -/
structure Meta where
  id : String
  rev : String
  rev_tree : List RevPath
  deleted : Bool
deriving DecidableEq

/-- A parsed document: metadata plus the body with `_id` and `_rev`
stripped. -/
structure Parsed where
  metadata : Meta
  data : Body
deriving DecidableEq

/-- Modelled from the spec: the deterministic content hash used by the
external parser to mint new revision ids. -/
def hashBody (b : Body) : String :=
  "h" ++ b.content ++ (if b.deletedF then "del" else "")

/-- Remove the `_id` and `_rev` fields from a body, as the parser does when
moving them into the metadata. -/
def stripMeta (b : Body) : Body := { b with idF := none, revF := none }

/-- Modelled from the spec: the external parser deps/docs/parseDoc.  In
new-edits mode it mints a fresh revision one generation past the supplied
`_rev` (whose node enters the tree with status "missing") or a fresh
generation-1 root when no `_rev` is supplied; in replication mode the
supplied `_rev` is used as-is.  A document without an `_id`, or with an
unparseable `_rev`, fails with a parse error. -/
def parseDoc (raw : Body) (newEdits : Bool) : Except PouchErr Parsed :=
  match raw.idF with
  | none => .error (createErrorR MISSING_DOC "_id is required for puts")
  | some did =>
    let st := if raw.deletedF then "deleted" else "available"
    if newEdits then
      match raw.revF with
      | none =>
        let nid := hashBody raw
        .ok ⟨⟨did, revStr 1 nid, [⟨1, [(nid, st)]⟩], raw.deletedF⟩, stripMeta raw⟩
      | some r =>
        match parseRev r with
        | none => .error (createErrorR BAD_ARG "Invalid rev format")
        | some (g, i) =>
          let nid := hashBody raw
          .ok ⟨⟨did, revStr (g + 1) nid, [⟨g, [(i, "missing"), (nid, st)]⟩],
            raw.deletedF⟩, stripMeta raw⟩
    else
      match raw.revF with
      | none => .error (createErrorR BAD_ARG "Invalid rev format")
      | some r =>
        match parseRev r with
        | none => .error (createErrorR BAD_ARG "Invalid rev format")
        | some (g, i) =>
          .ok ⟨⟨did, r, [⟨g, [(i, st)]⟩], raw.deletedF⟩, stripMeta raw⟩

/-- Embedding of convertDocFormat (bulkDocs.js lines 110-125): the converted
record carries id, rev, rev_tree and a one-entry revs map — and, decisively,
no top-level `deleted`, `data`, `seq` or `stemmedRevs` field. -/
def convertDocFormat (p : Parsed) : DocRec :=
  { id := p.metadata.id
    rev := p.metadata.rev
    rev_tree := p.metadata.rev_tree
    revs := [(p.metadata.rev, ⟨p.data, p.metadata.deleted⟩)]
    deleted := none
    data := none
    seq := none
    attachments := []
    stemmedRevs := none }

/-! ### The per-document update resolver -/

/-- The run-time options of a bulkDocs call.  `was_delete` is an `Option`
because the source tests the key's presence (`'was_delete' in opts`), not its
value. -/
structure Opts where
  new_edits : Bool
  was_delete : Option Bool
deriving DecidableEq

/-- Embedding of rootIsMissing (bulkDocs.js lines 31-33): the status of the
root node of the first entry of the revision forest (the source would throw
on an empty forest, which parsed documents never have). -/
def rootIsMissing (doc : DocRec) : Bool :=
  match doc.rev_tree with
  | [] => false
  | p :: _ =>
    match p.nodes with
    | [] => false
    | (_, st) :: _ => st == "missing"

/-- Outcome of the update function: a no-op (already-recorded revision), a
conflict rejection, or an accepted update.  `outerDoc` is the object the
caller's `doc` variable still points to after the call (the merge mutates it
in place except in the resurrection branch, where the local variable is
rebound) and `oldDoc2` is the prior record after the aliased `revs` mutation
of lines 149-151. -/
inductive UpdRes where
  | noop
  | rejected (outerDoc oldDoc2 : DocRec) (e : PouchErr)
  | accepted (outerDoc oldDoc2 newDoc : DocRec)
deriving DecidableEq

/-- Embedding of update (bulkDocs.js lines 127-162).  Note that the incoming
converted document has no top-level `deleted` field, so every `doc.deleted`
read in the source sees `undefined`; the embedding preserves this through
`truthyDel doc.deleted` with `doc.deleted = none`.  `none` models the
JavaScript exception paths (a failed re-parse or a missing revs entry), which
parsed inputs never hit. -/
def update (opts : Opts) (revsLimit : Nat) (doc oldDoc : DocRec) : Option UpdRes :=
  if (lookupA oldDoc.revs doc.rev).isSome then some .noop
  else
    let isRoot := isGen1 doc.rev
    let resurrect :=
      truthyDel oldDoc.deleted && !truthyDel doc.deleted && opts.new_edits && isRoot
    let reparsed : Option (DocRec × DocRec) :=
      if resurrect then
        match lookupA doc.revs doc.rev with
        | none => none
        | some rd =>
          let tmp := { rd.data with revF := some oldDoc.rev, idF := some oldDoc.id }
          let outer := { doc with revs := insertA doc.revs doc.rev ⟨tmp, rd.deleted⟩ }
          match parseDoc tmp opts.new_edits with
          | .error _ => none
          | .ok p => some (convertDocFormat p, outer)
      else some (doc, doc)
    match reparsed with
    | none => none
    | some (doc1, outer0) =>
      match doc1.rev_tree with
      | [] => none
      | t0 :: _ =>
        let merged := merge oldDoc.rev_tree t0 revsLimit
        let doc2 := { doc1 with
          stemmedRevs := some merged.stemmedRevs, rev_tree := merged.tree }
        match lookupA doc2.revs doc2.rev with
        | none => none
        | some rdN =>
          let revs2 := insertA oldDoc.revs doc2.rev rdN
          let doc3 := { doc2 with revs := revs2 }
          let oldDoc2 := { oldDoc with revs := revs2 }
          let outer := if resurrect then outer0 else doc3
          let inConflict := opts.new_edits &&
            ((truthyDel oldDoc.deleted && truthyDel doc1.deleted) ||
             (!truthyDel oldDoc.deleted && !(merged.conflicts == "new_leaf")) ||
             (truthyDel oldDoc.deleted && !truthyDel doc1.deleted &&
               merged.conflicts == "new_branch"))
          if inConflict then some (.rejected outer oldDoc2 (createError REV_CONFLICT))
          else some (.accepted outer oldDoc2 doc3)

/-- Result of the branch dispatch of processDocs (lines 71-91), before the
rootIsMissing override of line 95: the no-op early return, an error with the
oldDocs map after any aliased mutation, or a document to hand to `write`. -/
inductive BranchRes where
  | noopB
  | errB (e : PouchErr) (oldDocs2 : List (String × DocRec))
  | newB (newDoc : DocRec) (oldDocs2 : List (String × DocRec))
deriving DecidableEq

/-- Embedding of the branch dispatch of processDocs (bulkDocs.js lines
68-91) for one document; the returned `DocRec` is the object the loop
variable `doc` points to afterwards, on which line 95 checks
rootIsMissing. -/
def processBranch (opts : Opts) (revsLimit : Nat)
    (oldDocs : List (String × DocRec)) (doc : DocRec) :
    Option (DocRec × BranchRes) :=
  if opts.was_delete.isSome && (lookupA oldDocs doc.id).isNone then
    some (doc, .errB (createErrorR MISSING_DOC "deleted") oldDocs)
  else
    match lookupA oldDocs doc.id with
    | some old =>
      match update opts revsLimit doc old with
      | none => none
      | some .noop => some (doc, .noopB)
      | some (.rejected outer old2 e) =>
        some (outer, .errB e (insertA oldDocs doc.id old2))
      | some (.accepted outer old2 nd) =>
        some (outer, .newB nd (insertA oldDocs doc.id old2))
    | none =>
      match doc.rev_tree with
      | [] => none
      | t0 :: _ =>
        let merged := merge [] t0 revsLimit
        let nd := { doc with
          rev_tree := merged.tree, stemmedRevs := some merged.stemmedRevs }
        some (nd, .newB nd oldDocs)

/-- Outcome of processing one document, after the line-95 override: skip the
slot, record an error in the slot, or write the document. -/
inductive StepRes where
  | noopS
  | failedS (e : PouchErr) (oldDocs2 : List (String × DocRec))
  | okS (newDoc : DocRec) (oldDocs2 : List (String × DocRec))
deriving DecidableEq

/-- The oldDocs map carried out of a branch result (the map the source's
`oldDocs` variable holds after the branch ran). -/
def branchOld (br : BranchRes) (oldDocs : List (String × DocRec)) :
    List (String × DocRec) :=
  match br with
  | .noopB => oldDocs
  | .errB _ od => od
  | .newB _ od => od

/-- Embedding of one iteration of processDocs (bulkDocs.js lines 68-104)
up to the results/write bookkeeping: the branch dispatch followed by the
line 93-97 override that turns any first write carrying an unknown prior
revision into a conflict. -/
def processOne (opts : Opts) (revsLimit : Nat)
    (oldDocs : List (String × DocRec)) (doc : DocRec) : Option StepRes :=
  match processBranch opts revsLimit oldDocs doc with
  | none => none
  | some (outer, br) =>
    match br with
    | .noopB => some .noopS
    | .errB e od2 =>
      if opts.new_edits && rootIsMissing outer then
        some (.failedS (createError REV_CONFLICT) od2)
      else some (.failedS e od2)
    | .newB nd od2 =>
      if opts.new_edits && rootIsMissing outer then
        some (.failedS (createError REV_CONFLICT) od2)
      else some (.okS nd od2)

/-! ### Writing a document record -/

/-- The stub that replaces a live attachment in the body at write time
(bulkDocs.js lines 191-194): only `stub: true` and the digest survive. -/
def stubOf (a : Attachment) : Attachment :=
  { stub := true, data := none, content_type := none, length := none,
    digest := a.digest }

/-- Embedding of write (bulkDocs.js lines 164-205): denormalize the winning
revision into `rev`, `data` and `deleted`, bump the sequence counter, delete
stemmed revision bodies and the transient `stemmedRevs` field, move live
attachments into the record's `attachments` map and replace them in the body
by stubs.  `doc.data` aliases `doc.revs[winningRev].data` in the source, so
the stub replacement also updates the revs entry when it still exists.
`none` models the JavaScript exception when the winning revision has no body
entry. -/
def write (seq : Nat) (doc : DocRec) : Option (DocRec × Nat) :=
  let w := calculateWinningRev doc
  match lookupA doc.revs w with
  | none => none
  | some rd =>
    let seq2 := seq + 1
    let revs2 := (doc.stemmedRevs.getD []).foldl (fun m r => eraseA m r) doc.revs
    let data2 :=
      match rd.data.attachmentsF with
      | none => rd.data
      | some l => { rd.data with attachmentsF := some (l.map (fun kv => (kv.1, stubOf kv.2))) }
    let attMap2 :=
      match rd.data.attachmentsF with
      | none => doc.attachments
      | some l => l.foldl (fun m kv => insertA m kv.1 kv.2) doc.attachments
    let revs3 := updateIfPresent revs2 w (fun rdOld => ⟨data2, rdOld.deleted⟩)
    some ({ doc with
      rev := w
      data := some data2
      deleted := some (if rd.deleted then 1 else 0)
      seq := some seq2
      revs := revs3
      stemmedRevs := none
      attachments := attMap2 }, seq2)

/-! ### The bulk transaction coordinator -/

/-- A per-document slot value of the results array: a success record
`{ok, id, rev}` or a per-document error. -/
inductive DocResult where
  | ok (id rev : String)
  | err (e : PouchErr)
deriving DecidableEq

/-- The coordinator's loop state: the results array (a `none` slot is a hole
that was never assigned, JavaScript `undefined`), the oldDocs map, the
sequence counter, the document store and the records put so far, in put
order. -/
structure PState where
  results : List (Option DocResult)
  oldDocs : List (String × DocRec)
  seq : Nat
  store : List (String × DocRec)
  written : List DocRec
deriving DecidableEq

/-- Embedding of one full iteration of processDocs (bulkDocs.js lines
68-105) including the results/oldDocs/write bookkeeping: a no-op leaves a
hole in the results array, an error fills the slot with the error value, an
accepted document is written, stored under its id in oldDocs (the source
stores the very object that write then mutates) and appended to the put
order. -/
def processStep (opts : Opts) (revsLimit : Nat) (st : PState) (doc : DocRec) :
    Option PState :=
  match processOne opts revsLimit st.oldDocs doc with
  | none => none
  | some .noopS => some { st with results := st.results ++ [none] }
  | some (.failedS e od2) =>
    some { st with results := st.results ++ [some (.err e)], oldDocs := od2 }
  | some (.okS nd od2) =>
    match write st.seq nd with
    | none => none
    | some (wd, seq2) =>
      some { results := st.results ++ [some (.ok wd.id wd.rev)]
             oldDocs := insertA od2 wd.id wd
             seq := seq2
             store := insertA st.store wd.id wd
             written := st.written ++ [wd] }

/-- Embedding of processDocs (bulkDocs.js lines 66-106): fold the per-document
step over the batch in input order. -/
def processDocs (opts : Opts) (revsLimit : Nat) (st : PState) :
    List DocRec → Option PState
  | [] => some st
  | d :: ds =>
    match processStep opts revsLimit st d with
    | none => none
    | some st2 => processDocs opts revsLimit st2 ds

/-- Embedding of preProcessAttachment (bulkDocs.js lines 207-221): stubs pass
through; a text payload is decoded — the decoding error record, when any, is
silently wrapped as the binary data — measured and digested.  A payload that
is neither a stub nor a string makes the source return `undefined` and crash
downstream, modelled as `none`. -/
def preProcessAttachment (att : Attachment) : Option Attachment :=
  if att.stub then some att
  else
    match att.data with
    | some (.text s) =>
      let asBinary := parseBase64 s
      some { att with
        data := some (.blob (binStringToBlobOrBuffer asBinary))
        length := binLen asBinary
        digest := some ("md5-" ++ md5M asBinary) }
    | _ => none

/-- Embedding of the per-document part of preProcessAttachments (bulkDocs.js
lines 223-245): process every attachment of the document's body, rebuilding
the `_attachments` map in order. -/
def preDoc (doc : DocRec) : Option DocRec :=
  match lookupA doc.revs doc.rev with
  | none => none
  | some rd =>
    match rd.data.attachmentsF with
    | none => some doc
    | some atts =>
      match mapOptA (fun kv => (preProcessAttachment kv.2).map (fun a2 => (kv.1, a2))) atts with
      | none => none
      | some atts2 =>
        let rd2 : RevData := ⟨{ rd.data with attachmentsF := some atts2 }, rd.deleted⟩
        some { doc with revs := insertA doc.revs doc.rev rd2 }

/-- Embedding of fetchExistingDocs (bulkDocs.js lines 46-64): the prior
record of every batch id found in the store. -/
def fetchExistingDocs (store : List (String × DocRec)) (docs : List DocRec) :
    List (String × DocRec) :=
  docs.foldl (fun m d =>
    match lookupA store d.id with
    | some o => insertA m d.id o
    | none => m) []

/-- Embedding of the parse loop of bulkDocs.js (lines 247-275): parse and
convert each raw document in order, stopping at the first parse error. -/
def parseAll (newEdits : Bool) : List Body → Except PouchErr (List DocRec)
  | [] => .ok []
  | r :: rs =>
    match parseDoc r newEdits with
    | .error e => .error e
    | .ok p =>
      match parseAll newEdits rs with
      | .error e => .error e
      | .ok ds => .ok (convertDocFormat p :: ds)

/-- The store metadata record (api.metaData): the global sequence counter and
the optional revision limit. -/
structure MetaData where
  seq : Nat
  revsLimit : Option Nat
deriving DecidableEq

/-- The effective revision limit, `api.metaData.revsLimit || 1000`:
`undefined` and `0` are falsy and fall back to 1000. -/
def effRevsLimit (m : MetaData) : Nat :=
  match m.revsLimit with
  | none => 1000
  | some n => if n = 0 then 1000 else n

/-- Drop the trailing holes of the results array: a JavaScript sparse array
never extends past its last assigned index, so holes after the last assigned
slot do not exist in the delivered array. -/
def trimTrailingNone (l : List (Option DocResult)) : List (Option DocResult) :=
  (l.reverse.dropWhile (fun x => x.isNone)).reverse

/-- The observable outcome of a bulkDocs call: whether a backend transaction
was opened, the callback outcome (a batch-fatal error or the delivered
results array), the internal results array before trailing holes disappear,
the final store, the final sequence counter and the records written in put
order. -/
structure BulkOut where
  txnOpened : Bool
  outcome : Except PouchErr (List (Option DocResult))
  slots : List (Option DocResult)
  store : List (String × DocRec)
  seq : Nat
  written : List DocRec
deriving DecidableEq

/-- Embedding of the bulkDocs default export (bulkDocs.js lines 20-289): the
transaction is opened at entry (line 23), then every raw document is parsed
— the first parse error is delivered alone, with the transaction already
open but idle — then attachments are pre-processed, prior records fetched,
and the batch folded through processDocs; on completion the results array is
delivered with its trailing holes gone.  `none` models the JavaScript crash
paths (malformed attachment values or a missing winning-revision body), on
which the adapter makes no deterministic callback. -/
def bulkRun (store : List (String × DocRec)) (meta : MetaData)
    (reqDocs : List Body) (opts : Opts) : Option BulkOut :=
  let rl := effRevsLimit meta
  match parseAll opts.new_edits reqDocs with
  | .error e => some ⟨true, .error e, [], store, meta.seq, []⟩
  | .ok docs0 =>
    match mapOptA preDoc docs0 with
    | none => none
    | some docs =>
      let oldDocs0 := fetchExistingDocs store docs
      match processDocs opts rl ⟨[], oldDocs0, meta.seq, store, []⟩ docs with
      | none => none
      | some st =>
        some ⟨true, .ok (trimTrailingNone st.results), st.results, st.store,
          st.seq, st.written⟩

/-! ### The attachment read path -/

/-- Embedding of getAttachment.js: a readonly lookup whose success handler
calls `cb(null, doc.attachments[attachId].data)` unconditionally.  When the
document or the attachment entry does not exist the handler throws
(`undefined` property access), modelled as `none`: the callback is never
invoked with an error value. -/
def getAttachment (store : List (String × DocRec)) (docId attachId : String) :
    Option (Option PouchErr × Option AttachData) :=
  match lookupA store docId with
  | none => none
  | some doc =>
    match lookupA doc.attachments attachId with
    | none => none
    | some att => some (none, att.data)

/-! ### Helper predicates and concrete instances used by the theorems -/

/-- Whether an update resolution was accepted. -/
def isAcceptedUpd : Option UpdRes → Bool
  | some (.accepted _ _ _) => true
  | _ => false

/-- Whether a callback outcome is the non-fatal one. -/
def isOkOutcome {ε α : Type} (o : Except ε α) : Bool :=
  match o with
  | .ok _ => true
  | .error _ => false

/-- Count the success slots and the error slots of a results array. -/
def slotCounts (l : List (Option DocResult)) : Nat × Nat :=
  l.foldl (fun acc s =>
    match s with
    | some (.ok _ _) => (acc.1 + 1, acc.2)
    | some (.err _) => (acc.1, acc.2 + 1)
    | none => acc) (0, 0)

/-- Read the stored data of one attachment of one stored document out of a
bulk run's final store. -/
def storedAttachData (o : Option BulkOut) (did aid : String) :
    Option (Option AttachData) :=
  o.bind (fun out => (lookupA out.store did).bind
    (fun d => (lookupA d.attachments aid).map (fun a => a.data)))

/-- A plain body with no attachments. -/
def bodyD (c : String) (i r : Option String) (d : Bool) : Body :=
  { content := c, attachmentsF := none, idF := i, revF := r, deletedF := d }

/-- Raw input: a new-edits deletion of document "a" at its deleted winning
revision "2-d". -/
def c1raw : Body := bodyD "x" (some "a") (some "2-d") true

/-- The body of the deleted winning revision of the stored record below. -/
def c1oldBody : Body := bodyD "old" none none true

/-- The stored record of document "a" whose winning revision "2-d" is a
deletion, as left behind by two earlier writes. -/
def c1old : DocRec :=
  { id := "a", rev := "2-d"
    rev_tree := [⟨1, [("a1", "available"), ("d", "deleted")]⟩]
    revs := [("1-a1", ⟨bodyD "orig" none none false, false⟩),
             ("2-d", ⟨c1oldBody, true⟩)]
    deleted := some 1, data := some c1oldBody, seq := some 2
    attachments := [], stemmedRevs := none }

/-- The converted form of `c1raw`: a deletion revision "3-hxdel" extending
"2-d"; note the absent top-level `deleted` field. -/
def c1doc : DocRec :=
  { id := "a", rev := "3-hxdel"
    rev_tree := [⟨2, [("d", "missing"), ("hxdel", "deleted")]⟩]
    revs := [("3-hxdel", ⟨stripMeta c1raw, true⟩)]
    deleted := none, data := none, seq := none
    attachments := [], stemmedRevs := none }

/-- A store holding document "a" at revision "1-x". -/
def c2store : List (String × DocRec) :=
  [("a",
    { id := "a", rev := "1-x", rev_tree := [⟨1, [("x", "available")]⟩]
      revs := [("1-x", ⟨bodyD "v" none none false, false⟩)]
      deleted := some 0, data := some (bodyD "v" none none false)
      seq := some 1, attachments := [], stemmedRevs := none })]

/-- Raw input resubmitting the already-recorded revision "1-x" of "a" in
replication mode. -/
def c2raw : Body := bodyD "v2" (some "a") (some "1-x") false

/-- Raw input with no `_id`, which the parser rejects. -/
def c3raw : Body := bodyD "z" none none false

/-- The parse error produced for `c3raw`. -/
def c3err : PouchErr := createErrorR MISSING_DOC "_id is required for puts"

/-- An attachment whose payload is not valid base64. -/
def c4attA : Attachment :=
  { stub := false, data := some (.text "###"), content_type := some "text/plain"
    length := none, digest := none }

/-- Raw input document "a" carrying the invalid attachment. -/
def c4rawA : Body :=
  { content := "A", attachmentsF := some [("att.txt", c4attA)]
    idF := some "a", revF := none, deletedF := false }

/-- Raw input document "b", a plain sibling in the same batch. -/
def c4rawB : Body := bodyD "B" (some "b") none false

/-- Raw input: a fresh document "a". -/
def c5rawA : Body := bodyD "1" (some "a") none false

/-- Raw input: a fresh document "b". -/
def c5rawB : Body := bodyD "2" (some "b") none false

/-- The outcome of a two-document batch starting at sequence 5. -/
def c5out : BulkOut :=
  (bulkRun [] ⟨5, none⟩ [c5rawA, c5rawB] ⟨true, none⟩).getD
    ⟨false, .ok [], [], [], 0, []⟩

/-- The outcome of a one-document batch starting at sequence 0. -/
def c2wOut : BulkOut :=
  (bulkRun [] ⟨0, none⟩ [c5rawA] ⟨true, none⟩).getD
    ⟨false, .ok [], [], [], 0, []⟩

/-- A freshly converted single-revision document, ready for write. -/
def c6doc : DocRec :=
  { id := "a", rev := "1-x", rev_tree := [⟨1, [("x", "available")]⟩]
    revs := [("1-x", ⟨bodyD "v" none none false, false⟩)]
    deleted := none, data := none, seq := none
    attachments := [], stemmedRevs := none }

/-- The record `write 3 c6doc` persists. -/
def c6w : DocRec := ((write 3 c6doc).getD (c6doc, 0)).1

/-- Raw input: a deletion of "a" at revision "1-x" (the usual remove call). -/
def c7raw : Body := bodyD "g" (some "a") (some "1-x") true

/-- The converted form of a deletion of "a" carrying no prior revision: its
tree root is the fresh deleted leaf, not a missing parent. -/
def c7doc2 : DocRec :=
  { id := "a", rev := "1-hgdel", rev_tree := [⟨1, [("hgdel", "deleted")]⟩]
    revs := [("1-hgdel", ⟨bodyD "g" none none true, true⟩)]
    deleted := none, data := none, seq := none
    attachments := [], stemmedRevs := none }

/-- An accepted update carrying a stemmed revision "1-x", as produced by a
merge at revision limit 1. -/
def c8doc : DocRec :=
  { id := "a", rev := "2-y"
    rev_tree := [⟨1, [("x", "missing"), ("y", "available")]⟩]
    revs := [("1-x", ⟨bodyD "v" none none false, false⟩),
             ("2-y", ⟨bodyD "w" none none false, false⟩)]
    deleted := none, data := none, seq := none
    attachments := [], stemmedRevs := some ["1-x"] }

/-- The record `write 5 c8doc` persists. -/
def c8w : DocRec := ((write 5 c8doc).getD (c8doc, 0)).1

/-- An existing single-node forest for the stemming witness. -/
def c8tree : List RevPath := [⟨1, [("x", "available")]⟩]

/-- An incoming branch extending `c8tree` by one generation. -/
def c8p : RevPath := ⟨1, [("x", "missing"), ("y", "available")]⟩

/-- The converted form of a new-edits edit of "a" whose supplied prior
revision "1-x" is unknown to the store: the tree root is "missing". -/
def c9doc : DocRec :=
  { id := "a", rev := "2-hq"
    rev_tree := [⟨1, [("x", "missing"), ("hq", "available")]⟩]
    revs := [("2-hq", ⟨bodyD "q" none none false, false⟩)]
    deleted := none, data := none, seq := none
    attachments := [], stemmedRevs := none }

/-- The new-document branch result for `c9doc`: the merge against the empty
forest keeps the branch as the sole root and stems nothing. -/
def c9nd : DocRec := { c9doc with stemmedRevs := some [] }

/-- A stored attachment record for the read-path witness. -/
def c10att : Attachment :=
  { stub := false, data := some (.blob (.fromBin (.decodedB64 "QUJD")))
    content_type := some "text/plain", length := some 3
    digest := some "md5-digestQUJD" }

/-- A stored document carrying attachment "a". -/
def c10doc : DocRec :=
  { id := "d", rev := "1-x", rev_tree := [⟨1, [("x", "available")]⟩]
    revs := [("1-x", ⟨bodyD "v" none none false, false⟩)]
    deleted := some 0, data := some (bodyD "v" none none false)
    seq := some 1, attachments := [("a", c10att)], stemmedRevs := none }

/-- A store holding document "d" with attachment "a". -/
def c10store : List (String × DocRec) := [("d", c10doc)]

/-! ### Association-list lemmas -/

theorem lookupA_insertA_self {α : Type} (m : List (String × α)) (k : String) (v : α) :
    lookupA (insertA m k v) k = some v := by
  induction m with
  | nil => simp [insertA, lookupA]
  | cons kv t ih =>
    by_cases h : kv.1 = k
    · simp [insertA, h, lookupA]
    · simp [insertA, h, lookupA, ih]

theorem lookupA_eraseA_self {α : Type} (m : List (String × α)) (k : String) :
    lookupA (eraseA m k) k = none := by
  induction m with
  | nil => simp [eraseA, lookupA]
  | cons kv t ih =>
    obtain ⟨a, b⟩ := kv
    by_cases h : a = k
    · simpa [eraseA, h] using ih
    · simpa [eraseA, h, lookupA] using ih

theorem lookupA_eraseA_ne {α : Type} (m : List (String × α)) (k r : String)
    (h : k ≠ r) : lookupA (eraseA m r) k = lookupA m k := by
  induction m with
  | nil => simp [eraseA, lookupA]
  | cons kv t ih =>
    obtain ⟨a, b⟩ := kv
    have hrk : ¬r = k := fun hc => h hc.symm
    by_cases h2 : a = r
    · simpa [eraseA, h2, lookupA, hrk] using ih
    · by_cases h4 : a = k
      · simp [eraseA, h2, lookupA, h4, h]
      · simpa [eraseA, h2, lookupA, h4] using ih

theorem lookupA_foldl_eraseA_not_mem {α : Type} (l : List String)
    (m : List (String × α)) (k : String) (h : k ∉ l) :
    lookupA (l.foldl (fun m r => eraseA m r) m) k = lookupA m k := by
  induction l generalizing m with
  | nil => simp
  | cons r t ih =>
    have hk : k ≠ r := fun hc => h (hc ▸ List.mem_cons_self r t)
    have ht : k ∉ t := fun hc => h (List.mem_cons_of_mem r hc)
    simpa [ih _ ht] using lookupA_eraseA_ne m k r hk

theorem lookupA_none_foldl_eraseA {α : Type} (l : List String)
    (m : List (String × α)) (k : String) (h : lookupA m k = none) :
    lookupA (l.foldl (fun m r => eraseA m r) m) k = none := by
  induction l generalizing m with
  | nil => simpa using h
  | cons r t ih =>
    apply ih
    by_cases hk : k = r
    · subst hk; exact lookupA_eraseA_self m k
    · rw [lookupA_eraseA_ne m k r hk]; exact h

theorem lookupA_foldl_eraseA_mem {α : Type} (l : List String)
    (m : List (String × α)) (k : String) (h : k ∈ l) :
    lookupA (l.foldl (fun m r => eraseA m r) m) k = none := by
  induction l generalizing m with
  | nil => cases h
  | cons r t ih =>
    by_cases hk : k ∈ t
    · exact ih _ hk
    · have hkr : k = r := by
        cases h with
        | head => rfl
        | tail _ h2 => exact absurd h2 hk
      subst hkr
      exact lookupA_none_foldl_eraseA t _ k (lookupA_eraseA_self m k)

theorem lookupA_updateIfPresent_self {α : Type} (m : List (String × α))
    (k : String) (f : α → α) (v : α) (h : lookupA m k = some v) :
    lookupA (updateIfPresent m k f) k = some (f v) := by
  induction m with
  | nil => simp [lookupA] at h
  | cons kv t ih =>
    obtain ⟨a, b⟩ := kv
    by_cases h2 : a = k
    · simp only [lookupA, h2, if_pos rfl] at h
      cases h
      simp [updateIfPresent, h2, lookupA]
    · simp only [lookupA, if_neg h2] at h
      simpa [updateIfPresent, h2, lookupA] using ih h

theorem lookupA_updateIfPresent_none {α : Type} (m : List (String × α))
    (k : String) (f : α → α) (h : lookupA m k = none) :
    lookupA (updateIfPresent m k f) k = none := by
  induction m with
  | nil => simp [updateIfPresent, lookupA]
  | cons kv t ih =>
    obtain ⟨a, b⟩ := kv
    by_cases h2 : a = k
    · simp [lookupA, h2] at h
    · simp only [lookupA, if_neg h2] at h
      simpa [updateIfPresent, h2, lookupA] using ih h

/-! ### Structural lemmas about the coordinator fold -/

theorem write_seq (seq : Nat) (doc wd : DocRec) (seq2 : Nat)
    (h : write seq doc = some (wd, seq2)) :
    seq2 = seq + 1 ∧ wd.seq = some (seq + 1) := by
  cases hl : lookupA doc.revs (calculateWinningRev doc) with
  | none => simp only [write, hl] at h; cases h
  | some rd =>
    simp only [write, hl, Option.some.injEq, Prod.mk.injEq] at h
    obtain ⟨hw, hs⟩ := h
    refine ⟨hs.symm, ?_⟩
    rw [← hw]

theorem processStep_results_len (opts : Opts) (rl : Nat) (st : PState)
    (doc : DocRec) (st2 : PState) (h : processStep opts rl st doc = some st2) :
    st2.results.length = st.results.length + 1 := by
  unfold processStep at h
  cases h1 : processOne opts rl st.oldDocs doc with
  | none => rw [h1] at h; cases h
  | some sr =>
    rw [h1] at h
    cases sr with
    | noopS => cases h; simp
    | failedS e od => cases h; simp
    | okS nd od =>
      cases h2 : write st.seq nd with
      | none => simp only [h2] at h; cases h
      | some p =>
        obtain ⟨wd, s2⟩ := p
        simp only [h2, Option.some.injEq] at h
        rw [← h]
        simp

theorem processStep_seq_written (opts : Opts) (rl : Nat) (st : PState)
    (doc : DocRec) (st2 : PState) (h : processStep opts rl st doc = some st2) :
    (st2.seq = st.seq ∧ st2.written = st.written) ∨
    (st2.seq = st.seq + 1 ∧
      ∃ wd, wd.seq = some (st.seq + 1) ∧ st2.written = st.written ++ [wd]) := by
  unfold processStep at h
  cases h1 : processOne opts rl st.oldDocs doc with
  | none => rw [h1] at h; cases h
  | some sr =>
    rw [h1] at h
    cases sr with
    | noopS => cases h; left; exact ⟨rfl, rfl⟩
    | failedS e od => cases h; left; exact ⟨rfl, rfl⟩
    | okS nd od =>
      cases h2 : write st.seq nd with
      | none => simp only [h2] at h; cases h
      | some p =>
        obtain ⟨wd, s2⟩ := p
        simp only [h2, Option.some.injEq] at h
        obtain ⟨hs2, hwseq⟩ := write_seq st.seq nd wd s2 h2
        rw [← h]
        right
        subst hs2
        exact ⟨rfl, wd, hwseq, rfl⟩

theorem processDocs_results_len : ∀ (docs : List DocRec) (opts : Opts) (rl : Nat)
    (st st2 : PState), processDocs opts rl st docs = some st2 →
    st2.results.length = st.results.length + docs.length := by
  intro docs
  induction docs with
  | nil =>
    intro opts rl st st2 h
    simp only [processDocs] at h
    cases h
    simp
  | cons d ds ih =>
    intro opts rl st st2 h
    simp only [processDocs] at h
    cases h1 : processStep opts rl st d with
    | none => rw [h1] at h; cases h
    | some stm =>
      rw [h1] at h
      have ht := ih opts rl stm st2 h
      have h2 := processStep_results_len opts rl st d stm h1
      simp only [List.length_cons]
      omega

theorem processDocs_seq_written : ∀ (docs : List DocRec) (opts : Opts) (rl : Nat)
    (st st2 : PState), processDocs opts rl st docs = some st2 →
    ∃ k, st2.seq = st.seq + k ∧
      st2.written.map DocRec.seq =
        st.written.map DocRec.seq ++ (List.range' (st.seq + 1) k).map some := by
  intro docs
  induction docs with
  | nil =>
    intro opts rl st st2 h
    simp only [processDocs] at h
    cases h
    exact ⟨0, rfl, by simp [List.range']⟩
  | cons d ds ih =>
    intro opts rl st st2 h
    simp only [processDocs] at h
    cases h1 : processStep opts rl st d with
    | none => rw [h1] at h; cases h
    | some stm =>
      rw [h1] at h
      obtain ⟨k, hseq, hmap⟩ := ih opts rl stm st2 h
      rcases processStep_seq_written opts rl st d stm h1 with
        ⟨hse, hwe⟩ | ⟨hse, wd, hwseq, hwe⟩
      · exact ⟨k, by rw [hseq, hse], by rw [hmap, hwe, hse]⟩
      · refine ⟨k + 1, by rw [hseq, hse]; omega, ?_⟩
        rw [hmap, hwe, hse]
        have hr : List.range' (st.seq + 1) (k + 1) =
            (st.seq + 1) :: List.range' (st.seq + 1 + 1) k := List.range'_succ _ _ _
        rw [hr]
        simp [hwseq]

theorem filterMap_eq_of_map_some {α β : Type} (f : α → Option β) :
    ∀ (l : List α) (r : List β), l.map f = r.map some → l.filterMap f = r := by
  intro l
  induction l with
  | nil =>
    intro r h
    cases r with
    | nil => rfl
    | cons b rt => simp at h
  | cons a t ih =>
    intro r h
    cases r with
    | nil => simp at h
    | cons b rt =>
      simp only [List.map_cons, List.cons.injEq] at h
      obtain ⟨h1, h2⟩ := h
      simp [List.filterMap_cons, h1, ih rt h2]

theorem mapOptA_len {α β : Type} (f : α → Option β) :
    ∀ (l : List α) (l2 : List β), mapOptA f l = some l2 → l2.length = l.length := by
  intro l
  induction l with
  | nil =>
    intro l2 h
    simp only [mapOptA, Option.some.injEq] at h
    rw [← h]
    rfl
  | cons a t ih =>
    intro l2 h
    simp only [mapOptA] at h
    cases hfa : f a with
    | none => rw [hfa] at h; simp at h
    | some b =>
      rw [hfa] at h
      cases hmt : mapOptA f t with
      | none => simp only [hmt] at h; cases h
      | some bs =>
        simp only [hmt, Option.some.injEq] at h
        rw [← h]
        simp [ih bs hmt]

theorem lookupA_updateIfPresent_ne {α : Type} (m : List (String × α))
    (k r : String) (f : α → α) (h : r ≠ k) :
    lookupA (updateIfPresent m k f) r = lookupA m r := by
  induction m with
  | nil => simp [updateIfPresent, lookupA]
  | cons kv t ih =>
    obtain ⟨a, b⟩ := kv
    by_cases h2 : a = k
    · have h3 : ¬a = r := by rw [h2]; exact fun hc => h hc.symm
      simp only [updateIfPresent, if_pos h2, lookupA, if_neg h3]
      exact ih
    · by_cases h4 : a = r
      · simp [updateIfPresent, h2, lookupA, h4, h]
      · simpa [updateIfPresent, h2, lookupA, h4] using ih

/-! ### Lemmas about stemming in the modelled merge -/

/-- Search a path for a node whose serialized revision is `r` and whose
status is "missing"; `pos` is the generation of the first node. -/
def hasMissingIn (pos : Nat) (r : String) : List (String × String) → Bool
  | [] => false
  | (i, s) :: ns => (revStr pos i == r && s == "missing") || hasMissingIn (pos + 1) r ns

/-- Search a revision forest for a node with serialized revision `r` and
status "missing". -/
def treeHasMissing (t : List RevPath) (r : String) : Bool :=
  t.any (fun P => hasMissingIn P.pos r P.nodes)

/-- The shape of a path: its root generation and node ids, discarding
statuses. -/
def pathShape (P : RevPath) : Nat × List String := (P.pos, P.nodes.map Prod.fst)

theorem collectStem_missing : ∀ (ns : List (String × String)) (pos k : Nat)
    (r : String), r ∈ collectStem pos k ns →
    hasMissingIn pos r (markStem k ns) = true := by
  intro ns
  induction ns with
  | nil =>
    intro pos k r h
    cases k <;> simp [collectStem] at h
  | cons n t ih =>
    intro pos k r h
    cases k with
    | zero => simp [collectStem] at h
    | succ k2 =>
      obtain ⟨i, s⟩ := n
      simp only [collectStem, List.mem_cons] at h
      rcases h with h | h
      · subst h
        simp [markStem, hasMissingIn]
      · have h2 := ih (pos + 1) k2 r h
        simp [markStem, hasMissingIn, h2]

theorem markStem_ids : ∀ (k : Nat) (ns : List (String × String)),
    (markStem k ns).map Prod.fst = ns.map Prod.fst := by
  intro k
  induction k with
  | zero => intro ns; simp [markStem]
  | succ k2 ih =>
    intro ns
    cases ns with
    | nil => simp [markStem]
    | cons n t =>
      obtain ⟨i, s⟩ := n
      simp [markStem, ih t]

theorem merge_stemmed_missing (tree : List RevPath) (p : RevPath) (limit : Nat)
    (r : String) (h : r ∈ (merge tree p limit).stemmedRevs) :
    treeHasMissing (merge tree p limit).tree r = true := by
  simp only [merge] at h ⊢
  rw [List.mem_flatten] at h
  obtain ⟨l, hl, hrl⟩ := h
  rw [List.mem_map] at hl
  obtain ⟨sp, hsp, hspl⟩ := hl
  rw [List.mem_map] at hsp
  obtain ⟨P, hP, hPsp⟩ := hsp
  have hrc : r ∈ collectStem P.pos (P.nodes.length - limit) P.nodes := by
    rw [← hPsp] at hspl
    simpa [stemPath, ← hspl] using hrl
  have hm := collectStem_missing P.nodes P.pos (P.nodes.length - limit) r hrc
  simp only [treeHasMissing, List.any_eq_true]
  refine ⟨(stemPath limit P).1, ?_, ?_⟩
  · simp only [List.map_map, List.mem_map]
    exact ⟨P, hP, rfl⟩
  · simpa [stemPath] using hm

theorem merge_shape (tree : List RevPath) (p : RevPath) (limit : Nat) :
    (merge tree p limit).tree.map pathShape = (insertPath tree p).1.map pathShape := by
  simp only [merge, List.map_map]
  apply List.map_congr_left
  intro P _
  simp [stemPath, pathShape, markStem_ids]

theorem parseAll_len (newEdits : Bool) : ∀ (l : List Body) (ds : List DocRec),
    parseAll newEdits l = .ok ds → ds.length = l.length := by
  intro l
  induction l with
  | nil =>
    intro ds h
    simp only [parseAll] at h
    cases h
    rfl
  | cons r rs ih =>
    intro ds h
    simp only [parseAll] at h
    cases hp : parseDoc r newEdits with
    | error e => rw [hp] at h; cases h
    | ok p =>
      rw [hp] at h
      cases hrest : parseAll newEdits rs with
      | error e => rw [hrest] at h; cases h
      | ok ds2 =>
        rw [hrest] at h
        cases h
        simp [ih ds2 hrest]

/-! ### The claims -/

/-- C10: getAttachment always invokes its callback with null as the error
argument: for every stored document that has the named attachment it delivers
that attachment record's stored data, and it never delivers an error value —
when the document does not exist, it throws inside the request handler
(modelled as `none`) instead of reporting an error through the callback. -/
theorem claim_c10 (store : List (String × DocRec)) (docId attachId : String) :
    (∀ (e : Option PouchErr) (d : Option AttachData),
      getAttachment store docId attachId = some (e, d) → e = none) ∧
    (∀ (doc : DocRec) (att : Attachment), lookupA store docId = some doc →
      lookupA doc.attachments attachId = some att →
      getAttachment store docId attachId = some (none, att.data)) ∧
    (lookupA store docId = none → getAttachment store docId attachId = none) := by
  refine ⟨?_, ?_, ?_⟩
  · intro e d h
    cases h1 : lookupA store docId with
    | none => simp only [getAttachment, h1] at h; cases h
    | some doc =>
      cases h2 : lookupA doc.attachments attachId with
      | none => simp only [getAttachment, h1, h2] at h; cases h
      | some att =>
        simp only [getAttachment, h1, h2, Option.some.injEq, Prod.mk.injEq] at h
        exact h.1.symm
  · intro doc att h1 h2
    simp only [getAttachment, h1, h2]
  · intro h1
    simp only [getAttachment, h1]

/-- Witness for C10 at a concrete store: the success call of an existing
attachment, its null error argument, and the crash (`none`) on a missing
document id. -/
theorem claim_c10_witness :
    getAttachment c10store "d" "a" = some (none, c10att.data) ∧
    getAttachment c10store "zzz" "a" = none := by
  constructor
  · exact (claim_c10 c10store "d" "a").2.1 c10doc c10att (by decide) (by decide)
  · exact (claim_c10 c10store "zzz" "a").2.2 (by decide)

/-- C9: in new_edits mode, every document whose post-merge revision tree's
first root node carries status "missing" — the branch dispatch did not
short-circuit as a no-op — receives a ConflictError in its result slot, even
when no prior record exists for its id. -/
theorem claim_c9 (opts : Opts) (rl : Nat) (oldDocs : List (String × DocRec))
    (doc outer : DocRec) (br : BranchRes)
    (hne : opts.new_edits = true)
    (hb : processBranch opts rl oldDocs doc = some (outer, br))
    (hnn : br ≠ .noopB)
    (hroot : rootIsMissing outer = true) :
    processOne opts rl oldDocs doc =
      some (.failedS (createError REV_CONFLICT) (branchOld br oldDocs)) ∧
    ∀ st : PState, st.oldDocs = oldDocs →
      processStep opts rl st doc = some { st with
        results := st.results ++ [some (.err (createError REV_CONFLICT))]
        oldDocs := branchOld br oldDocs } := by
  have h1 : processOne opts rl oldDocs doc =
      some (.failedS (createError REV_CONFLICT) (branchOld br oldDocs)) := by
    unfold processOne
    rw [hb]
    cases br with
    | noopB => exact absurd rfl hnn
    | errB e od => simp [branchOld, hne, hroot]
    | newB nd od => simp [branchOld, hne, hroot]
  refine ⟨h1, ?_⟩
  intro st hst
  unfold processStep
  rw [hst, h1]

/-- Witness for C9: a new-edits edit whose supplied prior revision is unknown
— no prior record exists at all — lands in its result slot as a
ConflictError. -/
theorem claim_c9_witness :
    processOne ⟨true, none⟩ 1000 [] c9doc =
      some (.failedS (createError REV_CONFLICT) []) ∧
    processStep ⟨true, none⟩ 1000 ⟨[], [], 4, [], []⟩ c9doc =
      some ⟨[some (.err (createError REV_CONFLICT))], [], 4, [], []⟩ := by
  have h := claim_c9 ⟨true, none⟩ 1000 [] c9doc c9nd (.newB c9nd [])
    rfl (by decide) (by decide) (by decide)
  constructor
  · simpa [branchOld] using h.1
  · have h2 := h.2 ⟨[], [], 4, [], []⟩ rfl
    simpa [branchOld] using h2

/-- C7 (corrected): a deletion request (`was_delete` present) for a document
with no prior record yields a MissingDocError — except that in new_edits
mode, when the document's tree root is missing (a prior revision was
supplied), the line-95 override turns the slot into a ConflictError instead;
in either case the error is per-document: the step leaves oldDocs, the
sequence counter, the store and the put order untouched. -/
theorem claim_c7_amended (opts : Opts) (rl : Nat)
    (oldDocs : List (String × DocRec)) (doc : DocRec)
    (hwd : opts.was_delete.isSome = true)
    (hmiss : lookupA oldDocs doc.id = none) :
    processOne opts rl oldDocs doc = some (.failedS
      (if opts.new_edits && rootIsMissing doc then createError REV_CONFLICT
        else createErrorR MISSING_DOC "deleted") oldDocs) ∧
    ∀ st : PState, st.oldDocs = oldDocs →
      processStep opts rl st doc = some { st with results := st.results ++
        [some (.err (if opts.new_edits && rootIsMissing doc then
          createError REV_CONFLICT else createErrorR MISSING_DOC "deleted"))] } := by
  have hb : processBranch opts rl oldDocs doc =
      some (doc, .errB (createErrorR MISSING_DOC "deleted") oldDocs) := by
    unfold processBranch
    simp [hwd, hmiss]
  have h1 : processOne opts rl oldDocs doc = some (.failedS
      (if opts.new_edits && rootIsMissing doc then createError REV_CONFLICT
        else createErrorR MISSING_DOC "deleted") oldDocs) := by
    unfold processOne
    rw [hb]
    by_cases hc : (opts.new_edits && rootIsMissing doc) = true
    · simp [hc]
    · simp only [Bool.not_eq_true] at hc
      simp [hc]
  refine ⟨h1, ?_⟩
  intro st hst
  unfold processStep
  rw [hst, h1]

/-- Witness for C7: a deletion of an unknown document that carries no prior
revision takes the MissingDocError branch, and the step only fills the
result slot. -/
theorem claim_c7_witness :
    processOne ⟨true, some true⟩ 1000 [] c7doc2 =
      some (.failedS (createErrorR MISSING_DOC "deleted") []) ∧
    processStep ⟨true, some true⟩ 1000 ⟨[], [], 7, [], []⟩ c7doc2 =
      some ⟨[some (.err (createErrorR MISSING_DOC "deleted"))], [], 7, [], []⟩ := by
  have h := claim_c7_amended ⟨true, some true⟩ 1000 [] c7doc2 (by decide) (by decide)
  have hc : ((⟨true, some true⟩ : Opts).new_edits && rootIsMissing c7doc2) = false := by
    decide
  constructor
  · have h2 := h.1
    rw [hc] at h2
    simpa using h2
  · have h3 := h.2 ⟨[], [], 7, [], []⟩ rfl
    rw [hc] at h3
    simpa using h3

/-- C7 counterexample: the very scenario the claim describes — `was_delete`
present, no prior record — delivers a ConflictError, not a MissingDocError,
as soon as the deletion carries a prior revision under new_edits. -/
theorem claim_c7_counterexample :
    (bulkRun [] ⟨0, none⟩ [c7raw] ⟨true, some true⟩).map BulkOut.slots =
      some [some (.err (createError REV_CONFLICT))] ∧
    createError REV_CONFLICT ≠ createErrorR MISSING_DOC "deleted" := by
  decide

/-- C3 (corrected): a parse failure aborts the whole call with that error as
sole outcome — no slots, no store change, no sequence change — but the
backend transaction has already been opened at call entry, before the parse
loop ran. -/
theorem claim_c3_amended (store : List (String × DocRec)) (meta : MetaData)
    (reqDocs : List Body) (opts : Opts) (e : PouchErr)
    (h : parseAll opts.new_edits reqDocs = .error e) :
    bulkRun store meta reqDocs opts = some ⟨true, .error e, [], store, meta.seq, []⟩ := by
  unfold bulkRun
  rw [h]

/-- Witness for C3: a batch whose second document lacks an `_id` is rejected
whole; the transaction-opened flag is set, nothing else happened. -/
theorem claim_c3_witness :
    bulkRun c2store ⟨3, none⟩ [c5rawA, c3raw] ⟨true, none⟩ =
      some ⟨true, .error c3err, [], c2store, 3, []⟩ :=
  claim_c3_amended c2store ⟨3, none⟩ [c5rawA, c3raw] ⟨true, none⟩ c3err (by decide)

/-- C3 counterexample: the claim says no backend transaction is opened on a
parse failure, but the source opens the transaction at line 23, before
parsing: the call fails with the parse error while the transaction-opened
flag is true. -/
theorem claim_c3_counterexample :
    (bulkRun [] ⟨0, none⟩ [c3raw] ⟨true, none⟩).map BulkOut.txnOpened = some true ∧
    (bulkRun [] ⟨0, none⟩ [c3raw] ⟨true, none⟩).map BulkOut.outcome =
      some (.error c3err) := by
  decide

/-- C2 (corrected): when the call does not fail batch-fatally, the slots list
holds exactly one entry per parsed input document — a success value, a
per-document error, or an unset hole for a silently absorbed no-op
resubmission — and the delivered results sequence is the slots list with its
trailing holes dropped, so it can be shorter than the input. -/
theorem claim_c2_amended (store : List (String × DocRec)) (meta : MetaData)
    (reqDocs : List Body) (opts : Opts) (out : BulkOut)
    (h : bulkRun store meta reqDocs opts = some out)
    (hok : isOkOutcome out.outcome = true) :
    out.outcome = .ok (trimTrailingNone out.slots) ∧
    out.slots.length = reqDocs.length := by
  simp only [bulkRun] at h
  cases hp : parseAll opts.new_edits reqDocs with
  | error e =>
    simp only [hp] at h
    cases h
    simp [isOkOutcome] at hok
  | ok docs0 =>
    simp only [hp] at h
    cases hm : mapOptA preDoc docs0 with
    | none => simp only [hm] at h; cases h
    | some docs =>
      simp only [hm] at h
      cases hd : processDocs opts (effRevsLimit meta)
          ⟨[], fetchExistingDocs store docs, meta.seq, store, []⟩ docs with
      | none => simp only [hd] at h; cases h
      | some st =>
        simp only [hd] at h
        cases h
        refine ⟨rfl, ?_⟩
        have h1 := processDocs_results_len docs opts (effRevsLimit meta) _ st hd
        have h2 := mapOptA_len preDoc docs0 docs hm
        have h3 := parseAll_len opts.new_edits reqDocs docs0 hp
        simp only [List.length_nil] at h1
        simpa using h1.trans (by omega)

/-- Witness for C2: a one-document batch that writes normally — the slots
list has one entry per input and the delivered sequence is its trim. -/
theorem claim_c2_witness :
    c2wOut.outcome = .ok (trimTrailingNone c2wOut.slots) ∧
    c2wOut.slots.length = 1 :=
  claim_c2_amended [] ⟨0, none⟩ [c5rawA] ⟨true, none⟩ c2wOut (by decide) (by decide)

/-- C2 counterexample: resubmitting an already-recorded revision leaves its
slot as an unassigned hole, and since it is the only (hence trailing) slot,
the delivered results sequence is empty — its length 0 differs from the
input length 1, and no success or error value stands in the no-op's slot. -/
theorem claim_c2_counterexample :
    (bulkRun c2store ⟨1, none⟩ [c2raw] ⟨false, none⟩).map
      (fun out => (out.outcome, out.slots)) =
      some (.ok [], [none]) ∧ [c2raw].length = 1 := by
  decide

/-- C5: the seq values assigned within one bulk run are handed out by
incrementing the metadata counter once per written document, so in put order
they are the consecutive numbers following the counter — in particular
strictly increasing, with no value reused. -/
theorem claim_c5 (store : List (String × DocRec)) (meta : MetaData)
    (reqDocs : List Body) (opts : Opts) (out : BulkOut)
    (h : bulkRun store meta reqDocs opts = some out) :
    out.written.map DocRec.seq =
      (List.range' (meta.seq + 1) out.written.length).map some ∧
    List.Chain' (fun a b => a < b) (out.written.filterMap DocRec.seq) := by
  simp only [bulkRun] at h
  cases hp : parseAll opts.new_edits reqDocs with
  | error e =>
    simp only [hp] at h
    cases h
    simp [List.range']
  | ok docs0 =>
    simp only [hp] at h
    cases hm : mapOptA preDoc docs0 with
    | none => simp only [hm] at h; cases h
    | some docs =>
      simp only [hm] at h
      cases hd : processDocs opts (effRevsLimit meta)
          ⟨[], fetchExistingDocs store docs, meta.seq, store, []⟩ docs with
      | none => simp only [hd] at h; cases h
      | some st =>
        simp only [hd] at h
        cases h
        obtain ⟨k, hseq, hmap⟩ :=
          processDocs_seq_written docs opts (effRevsLimit meta) _ st hd
        simp only [List.map_nil, List.nil_append] at hmap
        have hlen : st.written.length = k := by
          have h4 := congrArg List.length hmap
          simpa using h4
        constructor
        · rw [show (⟨true, .ok (trimTrailingNone st.results), st.results,
            st.store, st.seq, st.written⟩ : BulkOut).written = st.written from rfl,
            hlen]
          exact hmap
        · have hf : st.written.filterMap DocRec.seq =
              List.range' (meta.seq + 1) k :=
            filterMap_eq_of_map_some DocRec.seq st.written _ hmap
          rw [show (⟨true, .ok (trimTrailingNone st.results), st.results,
            st.store, st.seq, st.written⟩ : BulkOut).written = st.written from rfl,
            hf]
          exact (List.pairwise_lt_range' _ _).chain'

/-- Witness for C5: a two-document batch starting at counter 5 is assigned
the consecutive sequence values 6 and 7 in input order. -/
theorem claim_c5_witness :
    c5out.written.map DocRec.seq =
      (List.range' 6 c5out.written.length).map some ∧
    List.Chain' (fun a b => a < b) (c5out.written.filterMap DocRec.seq) :=
  claim_c5 [] ⟨5, none⟩ [c5rawA, c5rawB] ⟨true, none⟩ c5out (by decide)

/-- C6: the record persisted by write has its rev field equal to the winning
revision selected from its revision tree, its deleted field equal to 1 or 0
according to that revision's deletion flag, and its data field equal to the
body stored in its revs map for that winning revision (the source aliases
the two, so the attachment-stub rewrite keeps them identical). -/
theorem claim_c6 (seq : Nat) (doc : DocRec) (rd : RevData) (wd : DocRec)
    (seq2 : Nat)
    (hl : lookupA doc.revs (calculateWinningRev doc) = some rd)
    (hnm : calculateWinningRev doc ∉ doc.stemmedRevs.getD [])
    (hw : write seq doc = some (wd, seq2)) :
    wd.rev = calculateWinningRev doc ∧
    wd.deleted = some (if rd.deleted then 1 else 0) ∧
    wd.data = (lookupA wd.revs wd.rev).map RevData.data := by
  simp only [write, hl, Option.some.injEq, Prod.mk.injEq] at hw
  obtain ⟨hwd, hs⟩ := hw
  subst hwd
  refine ⟨rfl, rfl, ?_⟩
  have h1 : lookupA ((doc.stemmedRevs.getD []).foldl (fun m r => eraseA m r)
      doc.revs) (calculateWinningRev doc) = some rd := by
    rw [lookupA_foldl_eraseA_not_mem _ _ _ hnm]
    exact hl
  dsimp only
  rw [lookupA_updateIfPresent_self _ (calculateWinningRev doc) _ rd h1]
  rfl

/-- Witness for C6 at a concrete single-revision document: the persisted
record's rev is the winner "1-x", its deleted flag is 0, and its data equals
the body its revs map stores for "1-x". -/
theorem claim_c6_witness :
    c6w.rev = calculateWinningRev c6doc ∧
    c6w.deleted = some (if (false : Bool) then 1 else 0) ∧
    c6w.data = (lookupA c6w.revs c6w.rev).map RevData.data :=
  claim_c6 3 c6doc ⟨bodyD "v" none none false, false⟩ c6w 4
    (by decide) (by decide) (by decide)

/-- C8: write removes the body entry of every revision the merge reported as
stemmed and persists no stemmedRevs field; and in the (spec-modelled) merge,
every stemmed revision keeps a node in the resulting tree carrying the
"missing" status marker, and stemming preserves the tree shape (root
generations and node ids) produced by the splice. -/
theorem claim_c8 :
    (∀ (seq : Nat) (doc wd : DocRec) (seq2 : Nat),
      write seq doc = some (wd, seq2) →
      wd.stemmedRevs = none ∧
      ∀ r : String, r ∈ doc.stemmedRevs.getD [] → lookupA wd.revs r = none) ∧
    (∀ (tree : List RevPath) (p : RevPath) (limit : Nat) (r : String),
      r ∈ (merge tree p limit).stemmedRevs →
      treeHasMissing (merge tree p limit).tree r = true) ∧
    (∀ (tree : List RevPath) (p : RevPath) (limit : Nat),
      (merge tree p limit).tree.map pathShape =
        (insertPath tree p).1.map pathShape) := by
  refine ⟨?_, merge_stemmed_missing, merge_shape⟩
  intro seq doc wd seq2 hw
  cases hl : lookupA doc.revs (calculateWinningRev doc) with
  | none => simp only [write, hl] at hw; cases hw
  | some rd =>
    simp only [write, hl, Option.some.injEq, Prod.mk.injEq] at hw
    obtain ⟨hwd, hs⟩ := hw
    subst hwd
    refine ⟨rfl, ?_⟩
    intro r hr
    have h1 : lookupA ((doc.stemmedRevs.getD []).foldl (fun m r => eraseA m r)
        doc.revs) r = none :=
      lookupA_foldl_eraseA_mem _ _ r hr
    dsimp only
    by_cases hrw : r = calculateWinningRev doc
    · subst hrw
      exact lookupA_updateIfPresent_none _ _ _ h1
    · rw [lookupA_updateIfPresent_ne _ _ _ _ hrw]
      exact h1

/-- Witness for C8: writing a document carrying stemmed revision "1-x"
erases its body and the stemmedRevs field; the merge that stems "1-x" at
revision limit 1 keeps its node as a "missing" stub and preserves the
spliced tree's shape. -/
theorem claim_c8_witness :
    c8w.stemmedRevs = none ∧
    lookupA c8w.revs "1-x" = none ∧
    treeHasMissing (merge c8tree c8p 1).tree "1-x" = true ∧
    (merge c8tree c8p 1).tree.map pathShape =
      (insertPath c8tree c8p).1.map pathShape := by
  refine ⟨?_, ?_, ?_, claim_c8.2.2 c8tree c8p 1⟩
  · exact (claim_c8.1 5 c8doc c8w 6 (by decide)).1
  · exact (claim_c8.1 5 c8doc c8w 6 (by decide)).2 "1-x" (by decide)
  · exact claim_c8.2.1 c8tree c8p 1 "1-x" (by decide)

/-- C1: the conflict-policy bug of update.  A new-edits deletion of a
document whose winning revision is already deleted — both the old winning
leaf and the incoming revision are deletions, and the merge classifies the
edit as a plain new_leaf extension — is ACCEPTED, not rejected: the
converted incoming document carries no top-level deleted field
(convertDocFormat omits it), so the source's `doc.deleted` reads are always
undefined and the "both deletions" conjunct of the inConflict formula can
never fire. -/
theorem claim_c1_bug :
    parseAll true [c1raw] = .ok [c1doc] ∧
    truthyDel c1old.deleted = true ∧
    (lookupA c1doc.revs c1doc.rev).map RevData.deleted = some true ∧
    c1doc.deleted = none ∧
    (merge c1old.rev_tree (c1doc.rev_tree.headD ⟨0, []⟩) 1000).conflicts =
      "new_leaf" ∧
    isAcceptedUpd (update ⟨true, none⟩ 1000 c1doc c1old) = true := by
  decide

/-- C4: the attachment-decoding bug.  In a batch whose first document carries
an attachment with an invalid base64 payload and whose second document is
plain, BOTH documents succeed — the results hold two success slots and zero
error slots — and the invalid-argument error record that parseBase64
produced is silently wrapped as the first document's stored attachment data
instead of becoming its result slot. -/
theorem claim_c4_bug :
    (bulkRun [] ⟨0, none⟩ [c4rawA, c4rawB] ⟨true, none⟩).map
      (fun out => slotCounts out.slots) = some (2, 0) ∧
    storedAttachData (bulkRun [] ⟨0, none⟩ [c4rawA, c4rawB] ⟨true, none⟩)
        "a" "att.txt" =
      some (some (.blob (.fromErr
        (createErrorR BAD_ARG "Attachment is not a valid base64 string")))) := by
  decide

end Pouch
